import Mathlib

/-!
# Verification of the AdvanceDB B+ tree storage core

Shallow embedding of the B+ tree storage layer of the AdvanceDB repository
(`src/storage/btree/btree.cpp`, `src/storage/btree/leaf.cpp`,
`src/storage/btree/internal.cpp`, `src/storage/page.cpp`) and of the
expression evaluator (`src/executor/evaluator.cpp`).

Modelling conventions:
* A slotted page is modelled as its header fields plus the list of decoded
  records of its slot directory (`cells`), in slot order.  Byte offsets of
  individual records inside the page buffer are not observable through any
  of the verified operations, so a slot is identified with the record it
  points at.  The `free_start` header field is kept explicit, because
  removing a slot does not reclaim the record bytes (the C++ code never
  compacts a page), so `free_start` cannot be derived from the live cells.
  The `free_end` header field is maintained by the C++ code as exactly
  `PAGE_SIZE - 2 * cell_count` (`init_page` sets `free_end = PAGE_SIZE`,
  `insert_slot` subtracts 2, `remove_slot` adds 2, nothing else touches it),
  so it is represented as the derived function `free_end`.
* Machine integers are modelled as `Nat` (and `Int` where the C++ uses
  `int`).  None of the verified paths overflows a `u16`/`u32`, except
  corners that are noted in comments where they occur.
* A failed C++ `assert` (and a thrown `std::runtime_error`) halts the
  process; both are modelled as `Except.error` with the assertion message.
* The disk is an association list of (page id, page) pairs, newest first;
  `read_page` returns the most recent write, and the all-zero page for a
  page id that was never written.  This mirrors `DiskManager`: a read
  returns exactly what was last written at that slot of the file, and a
  read past the end of the file zero-fills the buffer.
* The headers `storage/page.hpp`, `storage/record.hpp` and
  `storage/table_handle.hpp` are not part of the repository snapshot; the
  primitives they declare (`search_record`, `page_insert`, `can_insert`,
  `compare_keys`, `record_size`, `write_raw_record`, `slot_key`,
  `slot_value`, `allocate_page`, the header constants) are modelled from
  the specification (§3, §4.2, §6) and are marked `Modelled from the spec`.
-/

/-- PAGE_SIZE: 8192 bytes (spec §3, `common/constants.hpp`). -/
def PAGE_SIZE : Nat := 8192

/-- Modelled from the spec: `sizeof(PageHeader)`.  The exact layout is
implementation-defined (spec §6); the test suite's comment in
`btree_test.cpp` ("PAGE_SIZE = 8192, PageHeader = 32") fixes it at 32. -/
def HEADER_SIZE : Nat := 32

/-- INVALID_PAGE_ID: all-ones u32 sentinel (spec §3). -/
def INVALID_PAGE_ID : Nat := 4294967295

/-- UINT32_MAX, the failure sentinel returned by `find_leaf_page`. -/
def UINT32_MAX : Nat := 4294967295

/-- Page type tag (spec §3: {META, INDEX, DATA}). -/
inductive PageType where
  | META
  | INDEX
  | DATA
deriving DecidableEq, Repr

/-- Page level tag (spec §3: {LEAF, INTERNAL}). -/
inductive PageLevel where
  | LEAF
  | INTERNAL
deriving DecidableEq, Repr

/-- `struct Key { const uint8_t* data; uint16_t size; }`
(include/storage/btree.hpp); `Value` is an alias of `Key`.  The byte
string and its explicit u16 size travel together; every size computation
in the C++ uses the `size` member, never a traversal of the bytes.  The
model consumes `data` only through `compare_keys` and `size` only through
arithmetic, so a concrete scenario input may abbreviate its byte string
to the bytes that decide comparisons — dropping a prefix shared by every
key of that scenario, under which lexicographic comparison of the
remainders has the same sign as on the full strings — while keeping the
true `size`. -/
structure KeyVal where
  data : List Nat
  size : Nat
deriving DecidableEq, Repr

/-- A decoded record as referenced by one slot: a leaf record
`(key_size, value_size, key, value)` or an internal entry
`(key_size, child_page, key)` (layouts in spec §3; `InternalEntry` is
declared in `include/storage/btree.hpp`).  The stored `key_size` /
`value_size` header fields are the `size` components. -/
inductive Cell where
  | leafRec (key : KeyVal) (value : KeyVal)
  | internalRec (key : KeyVal) (child : Nat)
deriving DecidableEq, Repr

/-- The key of a record (`slot_key` interprets both layouts, returning the
bytes and the stored key_size). -/
def Cell.key : Cell → KeyVal
  | .leafRec k _ => k
  | .internalRec k _ => k

/-- The value of a leaf record.  Reading the value of an internal entry is
a layout violation (forbidden by the spec §3 invariants) and is modelled
as the empty byte string. -/
def Cell.value : Cell → KeyVal
  | .leafRec _ v => v
  | .internalRec _ _ => KeyVal.mk [] 0

/-- The child page id of an internal entry.  Reading the child of a leaf
record is a layout violation (forbidden by the spec §3 invariants) and is
modelled as 0. -/
def Cell.child : Cell → Nat
  | .leafRec _ _ => 0
  | .internalRec _ c => c

/-- The on-page byte size of a record: leaf records are
`u16 key_size | u16 value_size | key | value` (4 bytes of header), internal
entries are `u16 key_size | u32 child_page | key` (6 bytes of header,
`sizeof(InternalEntry)` with `#pragma pack(1)`). -/
def Cell.size : Cell → Nat
  | .leafRec k v => 4 + k.size + v.size
  | .internalRec k _ => 6 + k.size

/-- The record a slot of a zero page decodes to (out-of-range slot reads
are programming errors; the default is never reached by verified paths). -/
def defaultCell : Cell := Cell.leafRec (KeyVal.mk [] 0) (KeyVal.mk [] 0)

/-- A page: the header fields actually read or written by the B+ tree code,
plus the slot directory `cells`. -/
structure Page where
  page_id : Nat
  parent_page_id : Nat
  page_type : PageType
  page_level : PageLevel
  free_start : Nat
  root_page : Nat
  /-- The u32 stored in the first 4 reserved header bytes: the leftmost
  child pointer of an INTERNAL page (spec §3, §4.3). -/
  reserved0 : Nat
  cells : List Cell
deriving DecidableEq, Repr

/-- `cell_count` header field; maintained by the C++ code as the length of
the slot directory (`insert_slot` increments it together with the slot
insertion, `remove_slot` decrements it together with the removal). -/
def cell_count (p : Page) : Nat := p.cells.length

/-- `free_end` header field; maintained by the C++ code as exactly
`PAGE_SIZE - 2 * cell_count` (see the module comment). -/
def free_end (p : Page) : Nat := PAGE_SIZE - 2 * p.cells.length

/-- `init_page` (page.cpp): zero the buffer, set ids and tags,
`free_start = sizeof(PageHeader)`, `free_end = PAGE_SIZE`, `cell_count = 0`,
`parent_page_id = 0`. -/
def init_page (page_id : Nat) (page_type : PageType) (page_level : PageLevel) : Page :=
  { page_id := page_id
    parent_page_id := 0
    page_type := page_type
    page_level := page_level
    free_start := HEADER_SIZE
    root_page := 0
    reserved0 := 0
    cells := [] }

/-- Modelled from the spec: `compare_keys` (record.hpp is missing).
Spec §4.2: "Key comparison is lexicographic over raw bytes; shorter is
smaller when it is a prefix."  Returns a negative / zero / positive int
like `memcmp`. -/
def compare_keys : List Nat → List Nat → Int
  | [], [] => 0
  | [], _ :: _ => -1
  | _ :: _, [] => 1
  | a :: as, b :: bs =>
    if a < b then -1
    else if b < a then 1
    else compare_keys as bs

/-- Result of `search_record` (spec §4.2): `{found: bool, index: u16}`. -/
structure BSearchResult where
  found : Bool
  index : Nat
deriving DecidableEq, Repr

/-- Modelled from the spec: the slot walk underlying `search_record`
(page.hpp is missing).  Spec §4.2: "binary searches the slots; returns
{found, index}.  On found, index is the exact match; on miss, index is
the insertion position (first slot whose key > search key)."  On a page
with ascending keys this scan returns exactly that result. -/
def search_record_go (key : KeyVal) : List Cell → Nat → BSearchResult
  | [], i => { found := false, index := i }
  | c :: cs, i =>
    let cmp := compare_keys key.data (Cell.key c).data
    if 0 < cmp then search_record_go key cs (i + 1)
    else if cmp = 0 then { found := true, index := i }
    else { found := false, index := i }

/-- Modelled from the spec: `search_record(page, key, key_size)` (§4.2). -/
def search_record (p : Page) (key : KeyVal) : BSearchResult :=
  search_record_go key p.cells 0

/-- Modelled from the spec: `record_size(key_size, value_size)` for a leaf
record: `u16 key_size | u16 value_size | key | value` (spec §3). -/
def record_size (key_size value_size : Nat) : Nat :=
  4 + key_size + value_size

/-- Modelled from the spec: `can_insert(page, record_size)` returns whether
`free_end - free_start >= record_size + sizeof(slot)` (spec §4.2). -/
def can_insert (p : Page) (rec_size : Nat) : Bool :=
  decide (rec_size + 2 ≤ free_end p - p.free_start)

/-- `slot_key(page, i, out_len)` (spec §4.2): key bytes of slot `i`.
Out-of-range `i` is a programming error; modelled with a default. -/
def slot_key (p : Page) (i : Nat) : KeyVal :=
  Cell.key (p.cells.getD i defaultCell)

/-- `slot_value(page, i, out_len)` (spec §4.2, LEAF only). -/
def slot_value (p : Page) (i : Nat) : KeyVal :=
  Cell.value (p.cells.getD i defaultCell)

/-- `insert_slot(page, index, record_offset)` (page.cpp): insert a slot at
directory position `index` for the record `c` (the model identifies the
offset argument with the record written at that offset), shifting the
other slots; `free_end` decreases by 2 and `cell_count` increases by 1.
The C++ code then asserts `free_start <= free_end`; a failed assert is an
error.  A slot index beyond the directory would write out of bounds and is
likewise modelled as an error (unreachable from the verified callers). -/
def insert_slot (p : Page) (index : Nat) (c : Cell) : Except String Page :=
  if p.cells.length < index then
    .error "insert_slot: slot index out of range"
  else
    let cells2 := p.cells.take index ++ c :: p.cells.drop index
    if p.free_start ≤ PAGE_SIZE - 2 * cells2.length then
      .ok { p with cells := cells2 }
    else
      .error "assert: free_start <= free_end"

/-- `remove_slot(page, index)` (page.cpp): delete the slot at `index`,
closing the gap; `free_end` increases by 2, `cell_count` decreases by 1.
The record bytes are not reclaimed (`free_start` unchanged).  An invalid
index throws `"Could not remove an invalid slot"`.  (The C++ compares
`index > cell_count - 1` in u16 arithmetic, which on an empty page
underflows and corrupts the page instead; that corner is unreachable from
the verified callers and is modelled as the same error.) -/
def remove_slot (p : Page) (index : Nat) : Except String Page :=
  if p.cells.length < index + 1 then
    .error "Could not remove an invalid slot"
  else
    .ok { p with cells := p.cells.eraseIdx index }

/-- Modelled from the spec: `write_raw_record(page, bytes, size)` appends
`size` bytes at `free_start`, advances `free_start`, and returns the offset
where the record begins (spec §4.2).  The bytes themselves become visible
only through the slot inserted for them. -/
def write_raw_record (p : Page) (size : Nat) : Page × Nat :=
  ({ p with free_start := p.free_start + size }, p.free_start)

/-- `write_internal_entry(page, key, child)` (internal.cpp): assert the
page is INTERNAL, write an `InternalEntry` (6 + key_size bytes) at
`free_start`, advance `free_start`, return the offset. -/
def write_internal_entry (p : Page) (key : KeyVal) (_child : Nat) :
    Except String (Page × Nat) :=
  if p.page_level ≠ PageLevel.INTERNAL then
    .error "assert: page_level == INTERNAL"
  else
    .ok ({ p with free_start := p.free_start + (6 + key.size) }, p.free_start)

/-- Modelled from the spec: `page_insert(page, key, ..., value, ...)`
(§4.2): for LEAF pages, binary-search the insertion position, write a leaf
record, insert a slot at that index. -/
def page_insert (p : Page) (key value : KeyVal) : Except String Page :=
  let sr := search_record p key
  let wr := write_raw_record p (record_size key.size value.size)
  insert_slot wr.1 sr.index (Cell.leafRec key value)

/-- `insert_internal_no_split(page, key, child)` (internal.cpp). -/
def insert_internal_no_split (p : Page) (key : KeyVal) (child : Nat) :
    Except String (Bool × Page) :=
  if p.page_level ≠ PageLevel.INTERNAL then
    .error "assert: page_level == INTERNAL"
  else
    let rec_size := 6 + key.size
    if !can_insert p rec_size then .ok (false, p)
    else
      let sr := search_record p key
      if sr.found then .ok (false, p)
      else
        match write_internal_entry p key child with
        | .error e => .error e
        | .ok (p1, _off) =>
          match insert_slot p1 sr.index (Cell.internalRec key child) with
          | .error e => .error e
          | .ok p2 => .ok (true, p2)

/-- The all-zero page a `read_page` yields beyond the end of the file
(disk_manager.cpp zero-fills on EOF): every header field zero, no cells.
The zero byte decodes as tag 0, i.e. `META` / `LEAF`. -/
def zero_page : Page :=
  { page_id := 0
    parent_page_id := 0
    page_type := PageType.META
    page_level := PageLevel.LEAF
    free_start := 0
    root_page := 0
    reserved0 := 0
    cells := [] }

/-- The database state: the disk, the `TableHandle`'s cached root page id
and next free page id (spec §3). -/
structure DB where
  disk : List (Nat × Page)
  root_page : Nat
  next_free_page_id : Nat
deriving DecidableEq, Repr

/-- Most recent write at a page id, `zero_page` if none. -/
def disk_lookup : List (Nat × Page) → Nat → Page
  | [], _ => zero_page
  | e :: rest, page_id => if e.1 = page_id then e.2 else disk_lookup rest page_id

/-- `DiskManager::read_page` through a `Page` buffer. -/
def read_page (db : DB) (page_id : Nat) : Page :=
  disk_lookup db.disk page_id

/-- `DiskManager::write_page`: the new image shadows every older write at
the same page id. -/
def write_page (db : DB) (page_id : Nat) (p : Page) : DB :=
  { db with disk := (page_id, p) :: db.disk }

/-- Modelled from the spec: `allocate_page(handle)` bumps
`next_free_page_id` (spec §3, §6). -/
def allocate_page (db : DB) : Nat × DB :=
  (db.next_free_page_id, { db with next_free_page_id := db.next_free_page_id + 1 })

/-- Modelled from the spec: a fresh table right after
`create_table` + `open_table` (spec §6): the meta page 0 holds
`root_page = 0`, the handle caches `root_page = 0`, page allocation starts
at page 1. -/
def freshDB : DB :=
  { disk := [(0, init_page 0 PageType.META PageLevel.LEAF)]
    root_page := 0
    next_free_page_id := 1 }

/-- The binary-search loop of `internal_find_child` (internal.cpp lines
13-31): `int left, right, pos`; while `left <= right`, `mid` is
`(right + left) / 2`; on `key < key[mid]` set `pos := mid`,
`right := mid - 1`, otherwise `left := mid + 1`.  All arguments are
nonnegative at every call (so Lean's floor division on `Int` agrees with
the C++ truncating division).  The loop terminates because the interval
`[left, right]` shrinks at every iteration; the model carries that bound
as structural fuel, which `bsearchPos` instantiates with a value that is
always sufficient (proved in `bsearchPosFuel_elim` below). -/
def bsearchPosFuel (cells : List Cell) (key : KeyVal) :
    Nat → Int → Int → Int → Int
  | 0, _, _, pos => pos
  | Nat.succ f, left, right, pos =>
    if left ≤ right then
      let mid : Int := (right + left) / 2
      let midKey := Cell.key (cells.getD mid.toNat defaultCell)
      if compare_keys key.data midKey.data < 0 then
        bsearchPosFuel cells key f left (mid - 1) mid
      else
        bsearchPosFuel cells key f (mid + 1) right pos
    else pos

/-- The binary search of `internal_find_child`, entered with
`left = 0`, `right = cell_count - 1`, `pos = cell_count`; `cell_count + 1`
iterations always suffice. -/
def bsearchPos (cells : List Cell) (key : KeyVal) (left right pos : Int) : Int :=
  bsearchPosFuel cells key (cells.length + 1) left right pos

/-- `internal_find_child(page, key)` (internal.cpp lines 8-96): assert the
page is INTERNAL; binary-search for `pos`, then dispatch:
* `pos = 0`: return the leftmost child from the reserved header bytes if it
  is a plausible page id (nonzero, < 1000000, not INVALID_PAGE_ID);
  otherwise fall back to the header's `root_page` field (root pages only),
  then to `entry[0].child_page`, then assert ("No valid leftmost child
  found").
* `pos = cell_count`: return `entry[cell_count - 1].child_page`
  (unchecked); `0` if the page has no cells.
* `0 < pos < cell_count`: return `entry[pos - 1].child_page`, asserting it
  is a plausible page id ("Invalid child page ID"). -/
def internal_find_child (p : Page) (key : KeyVal) : Except String Nat :=
  if p.page_level ≠ PageLevel.INTERNAL then
    .error "assert: page_level == INTERNAL"
  else
    let n : Int := (cell_count p : Int)
    let pos : Int := bsearchPos p.cells key 0 (n - 1) n
    if pos = 0 then
      let leftmost_child := p.reserved0
      if leftmost_child ≠ 0 ∧ leftmost_child < 1000000 ∧ leftmost_child ≠ INVALID_PAGE_ID then
        .ok leftmost_child
      else if p.parent_page_id = 0 ∧ p.root_page ≠ 0 ∧ p.root_page ≠ p.page_id ∧
          p.root_page < 1000000 then
        .ok p.root_page
      else if 0 < cell_count p then
        let c := Cell.child (p.cells.getD 0 defaultCell)
        if c ≠ 0 ∧ c < 1000000 then .ok c
        else .error "assert: No valid leftmost child found"
      else .error "assert: No valid leftmost child found"
    else if pos = n then
      if cell_count p = 0 then .ok 0
      else .ok (Cell.child (p.cells.getD (cell_count p - 1) defaultCell))
    else if 0 < pos ∧ pos ≤ n then
      let c := Cell.child (p.cells.getD (pos - 1).toNat defaultCell)
      if c = 0 ∨ 1000000 ≤ c then .error "assert: Invalid child page ID"
      else .ok c
    else .error "assert: Invalid position in internal_find_child"

/-- The descent loop of `find_leaf_page` (leaf.cpp lines 8-36).  The C++
increments `depth` after each descent and fails once `depth > 100`; the
model counts the remaining allowed descents in `fuel` (initially 100).
On failure the function returns the sentinel `UINT32_MAX` together with
the last page read into `out_page`. -/
def findLeafBody (descend : Nat → Page → Except String (Nat × Page)) (db : DB)
    (key : KeyVal) (page_id : Nat) : Except String (Nat × Page) :=
  let p := read_page db page_id
  if p.page_level = PageLevel.LEAF then .ok (page_id, p)
  else
    match internal_find_child p key with
    | .error e => .error e
    | .ok next_page_id =>
      if next_page_id = 0 ∨ 1000000 ≤ next_page_id then .ok (UINT32_MAX, p)
      else descend next_page_id p

/-- The descent loop unrolled to a given depth: with fuel left, descend to
the child that `findLeafBody` determined; with the depth bound exhausted
(`depth > 100` in the C++), return the sentinel `UINT32_MAX` together with
the current page, which is what `out_page` last held. -/
def findLeafAux (db : DB) (key : KeyVal) : Nat → Nat → Except String (Nat × Page)
  | 0, page_id => findLeafBody (fun _ p => .ok (UINT32_MAX, p)) db key page_id
  | Nat.succ f, page_id =>
    findLeafBody (fun next _ => findLeafAux db key f next) db key page_id

/-- `find_leaf_page(th, key, out_page)` (leaf.cpp): descend from
`th.root_page` with a depth bound of 100. -/
def find_leaf_page (db : DB) (key : KeyVal) : Except String (Nat × Page) :=
  findLeafAux db key 100 db.root_page

/-- The same descent loop, additionally returning the list of page ids
passed to `read_page`, in order.  The first component coincides with
`findLeafAux` (proved below); the read trace is used to state which pages
the descent reaches. -/
def findLeafAuxReads (db : DB) (key : KeyVal) :
    Nat → Nat → Except String (Nat × Page) × List Nat
  | 0, page_id => (findLeafBody (fun _ p => .ok (UINT32_MAX, p)) db key page_id, [page_id])
  | Nat.succ f, page_id =>
    let p := read_page db page_id
    if p.page_level = PageLevel.LEAF then (.ok (page_id, p), [page_id])
    else
      match internal_find_child p key with
      | .error e => (.error e, [page_id])
      | .ok next_page_id =>
        if next_page_id = 0 ∨ 1000000 ≤ next_page_id then (.ok (UINT32_MAX, p), [page_id])
        else
          let rest := findLeafAuxReads db key f next_page_id
          (rest.1, page_id :: rest.2)

/-- `btree_search(th, key, value)` (btree.cpp lines 15-40). -/
def btree_search (db : DB) (key : KeyVal) : Except String (Option KeyVal) :=
  if db.root_page = 0 then .ok none
  else
    match find_leaf_page db key with
    | .error e => .error e
    | .ok (_leaf_page_id, leaf_page) =>
      let result := search_record leaf_page key
      if !result.found then .ok none
      else .ok (some (slot_value leaf_page result.index))

/-- `btree_insert_leaf_no_split(th, page_id, page, key, value)` (leaf.cpp
lines 39-58): if the record does not fit, return false without modifying
anything; otherwise `page_insert`, validate the header, write the page. -/
def btree_insert_leaf_no_split (db : DB) (page_id : Nat) (page : Page)
    (key value : KeyVal) : Except String (Bool × Page × DB) :=
  let rec_size := record_size key.size value.size
  if !can_insert page rec_size then .ok (false, page, db)
  else
    match page_insert page key value with
    | .error e => .error e
    | .ok page1 =>
      if page1.free_start < HEADER_SIZE ∨ PAGE_SIZE ≤ page1.free_start ∨
          free_end page1 < HEADER_SIZE ∨ PAGE_SIZE < free_end page1 ∨
          free_end page1 < page1.free_start then
        .error "assert: Corrupted page header"
      else
        .ok (true, page1, write_page db page_id page1)

/-- `SplitLeafResult` / `SplitInternalResult` (include/storage/btree.hpp);
the field name keeps the source's spelling. -/
structure SplitLeafResult where
  new_page : Nat
  seperator_key : KeyVal
deriving DecidableEq, Repr

/-- The copy loop of `split_leaf_page` (leaf.cpp lines 95-106): for each
record to move, `write_raw_record` into the new page and `insert_slot` at
the end of its directory. -/
def copy_records_to_new (new_page : Page) : List Cell → Except String Page
  | [] => .ok new_page
  | c :: cs =>
    let wr := write_raw_record new_page (Cell.size c)
    match insert_slot wr.1 (cell_count wr.1) c with
    | .error e => .error e
    | .ok np => copy_records_to_new np cs

/-- The slot removal loop shared by `split_leaf_page` (leaf.cpp lines
111-120) and `split_internal_page` (internal.cpp lines 198-207): `count`
times, remove the last slot as long as its index is at least `low`.
On an empty directory the C++ computes `last_index = cell_count - 1` in
u16 arithmetic, underflowing to 65535, and `remove_slot` then throws;
the model raises the same error. -/
def remove_back_slots (p : Page) (low : Nat) : Nat → Except String Page
  | 0 => .ok p
  | Nat.succ j =>
    if cell_count p = 0 then .error "Could not remove an invalid slot"
    else
      let last_index := cell_count p - 1
      if low ≤ last_index then
        match remove_slot p last_index with
        | .error e => .error e
        | .ok p1 => remove_back_slots p1 low j
      else .ok p

/-- `split_leaf_page(th, page)` (leaf.cpp lines 61-150): validate, allocate
a new LEAF page inheriting the parent pointer, move the records from
`split_index = max(cell_count / 2, 1)` on to it, remove those slots from
the original (highest index first), and return the new page id together
with the separator key: slot 0 of the new page, or slot 0 of the original
page if the new page ended up empty. -/
def split_leaf_page (db : DB) (page : Page) :
    Except String (SplitLeafResult × Page × DB) :=
  if page.page_level ≠ PageLevel.LEAF then .error "assert: page_level == LEAF"
  else if page.free_start < HEADER_SIZE ∨ PAGE_SIZE ≤ page.free_start ∨
      free_end page < HEADER_SIZE ∨ PAGE_SIZE < free_end page ∨
      free_end page < page.free_start then
    .error "assert: Cannot split corrupted page"
  else
    let al := allocate_page db
    let new_page_id := al.1
    let db1 := al.2
    let new_page0 := init_page new_page_id PageType.DATA PageLevel.LEAF
    let new_page1 := { new_page0 with parent_page_id := page.parent_page_id }
    let total := cell_count page
    if total < 2 then .error "assert: Cannot split page with less than 2 elements"
    else
      let split_index := if total / 2 = 0 then 1 else total / 2
      match copy_records_to_new new_page1 (page.cells.drop split_index) with
      | .error e => .error e
      | .ok new_page2 =>
        match remove_back_slots page split_index (total - split_index) with
        | .error e => .error e
        | .ok page1 =>
          let sep :=
            if 0 < cell_count new_page2 then slot_key new_page2 0 else slot_key page1 0
          if 256 < sep.size then .error "assert: Key too large"
          else
            let db2 := write_page db1 new_page_id new_page2
            .ok ({ new_page := new_page_id, seperator_key := sep }, page1, db2)

/-- The copy loop of `split_internal_page` (internal.cpp lines 171-189):
move each entry to the new page and set `parent_page_id` of its child page
to the new page's id (reading and writing the child through the disk).
The child reached through `entry[mid].child_page` — the one that becomes
the new page's leftmost child — is NOT reparented by the source. -/
def copy_entries_reparent (np : Page) (db : DB) : List Cell → Except String (Page × DB)
  | [] => .ok (np, db)
  | c :: cs =>
    let wr := write_raw_record np (Cell.size c)
    match insert_slot wr.1 (cell_count wr.1) c with
    | .error e => .error e
    | .ok np1 =>
      let child_page_id := Cell.child c
      let child_page := read_page db child_page_id
      let child_page1 := { child_page with parent_page_id := np1.page_id }
      let db1 := write_page db child_page_id child_page1
      copy_entries_reparent np1 db1 cs

/-- `split_internal_page(th, page)` (internal.cpp lines 133-216): allocate
a new INTERNAL page; `mid = cell_count / 2`; the separator is the key at
slot `mid` (copied out before any mutation); entries `mid+1 …
cell_count-1` move to the new page, whose leftmost-child pointer becomes
`entry[mid].child_page`; slots `mid … cell_count-1` are removed from the
original, highest first; the new page inherits the parent pointer and is
written. -/
def split_internal_page (db : DB) (page : Page) :
    Except String (SplitLeafResult × Page × DB) :=
  if page.page_level ≠ PageLevel.INTERNAL then .error "assert: page_level == INTERNAL"
  else
    let al := allocate_page db
    let new_pid := al.1
    let db1 := al.2
    let new_page0 := init_page new_pid PageType.INDEX PageLevel.INTERNAL
    let total := cell_count page
    if total < 2 then .error "assert: Cannot split internal page with less than 2 elements"
    else
      let mid := total / 2
      let sep := slot_key page mid
      if 256 < sep.size then .error "assert: Key too large"
      else
        let new_leftmost_child :=
          if mid < total then Cell.child (page.cells.getD mid defaultCell) else 0
        match copy_entries_reparent new_page0 db1 (page.cells.drop (mid + 1)) with
        | .error e => .error e
        | .ok (new_page1, db2) =>
          let new_page2 :=
            if new_leftmost_child ≠ 0 then { new_page1 with reserved0 := new_leftmost_child }
            else new_page1
          match remove_back_slots page mid (total - mid) with
          | .error e => .error e
          | .ok page1 =>
            let new_page3 := { new_page2 with parent_page_id := page.parent_page_id }
            let db3 := write_page db2 new_pid new_page3
            .ok ({ new_page := new_pid, seperator_key := sep }, page1, db3)

/-- `create_new_root(th, left, key, right)` (internal.cpp lines 218-264):
allocate a new INTERNAL root with leftmost child `left` (stored both in the
reserved bytes and, for root pages, in the header's `root_page` field), a
single entry `(key, right)`, update the handle and the meta page, write the
root, and rewrite both children with their new `parent_page_id`. -/
def create_new_root (db : DB) (left : Nat) (key : KeyVal) (right : Nat) :
    Except String DB :=
  let al := allocate_page db
  let new_root_id := al.1
  let db1 := al.2
  let root0 := init_page new_root_id PageType.INDEX PageLevel.INTERNAL
  let root1 := { root0 with reserved0 := left, root_page := left }
  match write_internal_entry root1 key right with
  | .error e => .error e
  | .ok (root2, _offset) =>
    match insert_slot root2 0 (Cell.internalRec key right) with
    | .error e => .error e
    | .ok root3 =>
      let db2 := { db1 with root_page := new_root_id }
      let meta := read_page db2 0
      let db3 := write_page db2 0 { meta with root_page := new_root_id }
      let db4 := write_page db3 new_root_id root3
      let left_page := read_page db4 left
      if left_page.page_id ≠ left then .error "assert: Left page ID mismatch"
      else
        let db5 := write_page db4 left { left_page with parent_page_id := new_root_id }
        let right_page := read_page db5 right
        let db6 := write_page db5 right { right_page with parent_page_id := new_root_id }
        .ok db6

/-- `insert_into_parent(th, left, key, right)` (internal.cpp lines
266-332): read the left page; if it has no parent (or the parent id is
invalid, or the parent is not INTERNAL, or already contains the separator),
fall back to `create_new_root`.  Otherwise, when inserting at directory
position 0, first point the parent's leftmost-child pointer at `left`;
then `insert_internal_no_split`; on overflow, `split_internal_page`, write
the old parent and recurse with the separator from the split.  Note that
in the overflow case the entry `(key, right)` itself is never inserted
anywhere.  The C++ recursion is unbounded; the model carries fuel
(initially 100, far above any depth the bounded descent can produce) and
reports exhaustion as an error. -/
def insert_into_parent_body (recurse : DB → Nat → KeyVal → Nat → Except String DB)
    (db : DB) (left : Nat) (key : KeyVal) (right : Nat) : Except String DB :=
    let left_page := read_page db left
    if left_page.parent_page_id = 0 then create_new_root db left key right
    else
      let parent_pid := left_page.parent_page_id
      if parent_pid = 0 ∨ parent_pid = INVALID_PAGE_ID then create_new_root db left key right
      else
        let parent := read_page db parent_pid
        if parent.page_level ≠ PageLevel.INTERNAL then create_new_root db left key right
        else
          let sr := search_record parent key
          if sr.found then create_new_root db left key right
          else
            let parent1 := if sr.index = 0 then { parent with reserved0 := left } else parent
            match insert_internal_no_split parent1 key right with
            | .error e => .error e
            | .ok (true, parent2) => .ok (write_page db parent_pid parent2)
            | .ok (false, parent2) =>
              match split_internal_page db parent2 with
              | .error e => .error e
              | .ok (split, parent3, db1) =>
                let db2 := write_page db1 parent_pid parent3
                recurse db2 parent_pid split.seperator_key split.new_page

/-- `insert_into_parent` unrolled to a given recursion depth: the depth
counts the remaining recursive calls, and only an actual recursive call
consumes it. -/
def insert_into_parent_fuel : Nat → DB → Nat → KeyVal → Nat → Except String DB
  | 0 =>
    insert_into_parent_body
      (fun _ _ _ _ => .error "insert_into_parent: recursion depth exceeded")
  | Nat.succ f => insert_into_parent_body (insert_into_parent_fuel f)

/-- `insert_into_parent(th, left, key, right)` with the standard fuel. -/
def insert_into_parent (db : DB) (left : Nat) (key : KeyVal) (right : Nat)
    (fuel : Nat) : Except String DB :=
  insert_into_parent_fuel fuel db left key right

/-- The continuation of `btree_insert` after a full target leaf forces a
split (btree.cpp lines 80-205): split the leaf, write it back (after the
page-id assertion), re-read the new right page, recover the separator key
(slot 0 of the new page, or the split result's key if the new page is
empty), and insert the record into the side the separator dictates.
If the record belongs on the left but the left page lacks space, the
source has a safety branch for the case of a single large record occupying
the left page (move it to the right page, reinsert, use its key as the
separator); any other lack of space is an assertion failure.  Finally
propagate the separator with `insert_into_parent`. -/
def btree_insert_split_path (db : DB) (leaf_page_id : Nat) (leaf_page : Page)
    (key value : KeyVal) : Except String (Bool × DB) :=
  match split_leaf_page db leaf_page with
  | .error e => .error e
  | .ok (split_result, leaf_page1, db1) =>
    if leaf_page1.page_id ≠ leaf_page_id then .error "assert: Page ID mismatch after split"
    else
      let db2 := write_page db1 leaf_page_id leaf_page1
      let new_page := read_page db2 split_result.new_page
      let sepE : Except String KeyVal :=
        if 0 < cell_count new_page then
          let sk := slot_key new_page 0
          if 256 < sk.size then .error "assert: Key too large" else .ok sk
        else if 256 < split_result.seperator_key.size then .error "assert: Key too large"
        else .ok split_result.seperator_key
      match sepE with
      | .error e => .error e
      | .ok sep_key =>
        let cmp := compare_keys key.data sep_key.data
        if cmp < 0 then
          if !can_insert leaf_page1 (record_size key.size value.size) then
            if cell_count new_page = 0 ∧ cell_count leaf_page1 = 1 then
              let large := leaf_page1.cells.getD 0 defaultCell
              if 256 < (Cell.key large).size then .error "assert: Key too large"
              else
                match remove_slot leaf_page1 0 with
                | .error e => .error e
                | .ok leaf2 =>
                  let wr := write_raw_record new_page (Cell.size large)
                  match insert_slot wr.1 0 large with
                  | .error e => .error e
                  | .ok new_page1 =>
                    let db3 := write_page db2 leaf_page_id leaf2
                    let db4 := write_page db3 split_result.new_page new_page1
                    let leaf3 := read_page db4 leaf_page_id
                    if !can_insert leaf3 (record_size key.size value.size) then
                      .error "assert: Left page still doesn't have space after moving large record"
                    else
                      match page_insert leaf3 key value with
                      | .error e => .error e
                      | .ok leaf4 =>
                        let db5 := write_page db4 leaf_page_id leaf4
                        match insert_into_parent db5 leaf_page_id (Cell.key large)
                            split_result.new_page 100 with
                        | .error e => .error e
                        | .ok db6 => .ok (true, db6)
            else .error "assert: Left page doesn't have space after split"
          else
            match page_insert leaf_page1 key value with
            | .error e => .error e
            | .ok leaf4 =>
              let db3 := write_page db2 leaf_page_id leaf4
              match insert_into_parent db3 leaf_page_id sep_key split_result.new_page 100 with
              | .error e => .error e
              | .ok db4 => .ok (true, db4)
        else
          if !can_insert new_page (record_size key.size value.size) then
            .error "assert: Right page doesn't have space after split"
          else
            match page_insert new_page key value with
            | .error e => .error e
            | .ok new_page1 =>
              let db3 := write_page db2 split_result.new_page new_page1
              match insert_into_parent db3 leaf_page_id sep_key split_result.new_page 100 with
              | .error e => .error e
              | .ok db4 => .ok (true, db4)

/-- `btree_insert(th, key, value)` (btree.cpp lines 42-206): an empty tree
gets a fresh root leaf (recorded in the handle and the meta page);
otherwise descend to the target leaf, refuse duplicates, insert in place
when the leaf has room, and otherwise take the split path. -/
def btree_insert (db : DB) (key value : KeyVal) : Except String (Bool × DB) :=
  if db.root_page = 0 then
    let al := allocate_page db
    let root_page_id := al.1
    let db1 := al.2
    let root := init_page root_page_id PageType.DATA PageLevel.LEAF
    let db2 := { db1 with root_page := root_page_id }
    let meta := read_page db2 0
    let db3 := write_page db2 0 { meta with root_page := root_page_id }
    match page_insert root key value with
    | .error e => .error e
    | .ok root1 => .ok (true, write_page db3 root_page_id root1)
  else
    match find_leaf_page db key with
    | .error e => .error e
    | .ok (leaf_page_id, leaf_page) =>
      let search_result := search_record leaf_page key
      if search_result.found then .ok (false, db)
      else
        match btree_insert_leaf_no_split db leaf_page_id leaf_page key value with
        | .error e => .error e
        | .ok (true, _leaf_page1, db1) => .ok (true, db1)
        | .ok (false, leaf_page1, _db1) =>
          btree_insert_split_path db leaf_page_id leaf_page1 key value

/-- The executor's runtime value: `std::variant<int, std::string>`
(executor/types.h as used by evaluator.cpp). -/
inductive EValue where
  | intV (n : Int)
  | strV (s : String)
deriving DecidableEq, Repr

/-- The expression AST (executor/expr_defs.h): Identifier, Number, String
and Binary nodes.  (`ExprKind::Unary` exists as a tag but has no node
struct and no evaluator case; it is not representable.) -/
inductive Expr where
  | identifier (name : String)
  | number (n : Int)
  | stringLit (s : String)
  | binary (op : String) (left : Expr) (right : Expr)
deriving DecidableEq, Repr

/-- `get_int` (evaluator.cpp): the int alternative or
"Expected integer value". -/
def get_int : EValue → Except String Int
  | .intV n => .ok n
  | .strV _ => .error "Expected integer value"

/-- `get_string` (evaluator.cpp): the string alternative, or the decimal
rendering of an int. -/
def get_string : EValue → Except String String
  | .strV s => .ok s
  | .intV n => .ok (toString n)

/-- `find_column_index` (evaluator.cpp): position of `name` in
`column_names`, or "Column not found: name". -/
def find_column_index (name : String) : List String → Except String Nat
  | [] => .error ("Column not found: " ++ name)
  | c :: cs =>
    if c = name then .ok 0
    else
      match find_column_index name cs with
      | .error e => .error e
      | .ok i => .ok (i + 1)

/-- `evaluate_expr(expr, tuple, column_names)` (evaluator.cpp lines
36-151).  Both operands of a binary node are evaluated (left first) before
the operator dispatch; `/` checks the right operand against zero before
reading the left operand as an int and dividing (C++ `int` division
truncates toward zero, `Int.tdiv`).  Comparisons yield int 0/1 and fall
back to int 0 on mixed operand types; `+` on non-int operands is string
concatenation. -/
def evaluate_expr (expr : Expr) (tuple : List EValue) (column_names : List String) :
    Except String EValue :=
  match expr with
  | .identifier name =>
    match find_column_index name column_names with
    | .error e => .error e
    | .ok idx =>
      if tuple.length ≤ idx then .error ("Column index out of bounds: " ++ name)
      else .ok (tuple.getD idx (EValue.intV 0))
  | .number n => .ok (EValue.intV n)
  | .stringLit s => .ok (EValue.strV s)
  | .binary op l r =>
    match evaluate_expr l tuple column_names with
    | .error e => .error e
    | .ok left_val =>
      match evaluate_expr r tuple column_names with
      | .error e => .error e
      | .ok right_val =>
        if op = "+" then
          match left_val, right_val with
          | .intV a, .intV b => .ok (EValue.intV (a + b))
          | _, _ =>
            match get_string left_val with
            | .error e => .error e
            | .ok ls =>
              match get_string right_val with
              | .error e => .error e
              | .ok rs => .ok (EValue.strV (ls ++ rs))
        else if op = "-" then
          match get_int left_val with
          | .error e => .error e
          | .ok a =>
            match get_int right_val with
            | .error e => .error e
            | .ok b => .ok (EValue.intV (a - b))
        else if op = "*" then
          match get_int left_val with
          | .error e => .error e
          | .ok a =>
            match get_int right_val with
            | .error e => .error e
            | .ok b => .ok (EValue.intV (a * b))
        else if op = "/" then
          match get_int right_val with
          | .error e => .error e
          | .ok b =>
            if b = 0 then .error "Division by zero"
            else
              match get_int left_val with
              | .error e => .error e
              | .ok a => .ok (EValue.intV (Int.tdiv a b))
        else if op = "=" ∨ op = "==" then
          match left_val, right_val with
          | .intV a, .intV b => .ok (EValue.intV (if a = b then 1 else 0))
          | .strV a, .strV b => .ok (EValue.intV (if a = b then 1 else 0))
          | _, _ => .ok (EValue.intV 0)
        else if op = "<" then
          match left_val, right_val with
          | .intV a, .intV b => .ok (EValue.intV (if a < b then 1 else 0))
          | .strV a, .strV b => .ok (EValue.intV (if a < b then 1 else 0))
          | _, _ => .ok (EValue.intV 0)
        else if op = ">" then
          match left_val, right_val with
          | .intV a, .intV b => .ok (EValue.intV (if b < a then 1 else 0))
          | .strV a, .strV b => .ok (EValue.intV (if b < a then 1 else 0))
          | _, _ => .ok (EValue.intV 0)
        else if op = "<=" then
          match left_val, right_val with
          | .intV a, .intV b => .ok (EValue.intV (if a ≤ b then 1 else 0))
          | .strV a, .strV b => .ok (EValue.intV (if a ≤ b then 1 else 0))
          | _, _ => .ok (EValue.intV 0)
        else if op = ">=" then
          match left_val, right_val with
          | .intV a, .intV b => .ok (EValue.intV (if b ≤ a then 1 else 0))
          | .strV a, .strV b => .ok (EValue.intV (if b ≤ a then 1 else 0))
          | _, _ => .ok (EValue.intV 0)
        else if op = "AND" ∨ op = "&&" then
          match get_int left_val with
          | .error e => .error e
          | .ok a =>
            match get_int right_val with
            | .error e => .error e
            | .ok b => .ok (EValue.intV (if a ≠ 0 ∧ b ≠ 0 then 1 else 0))
        else if op = "OR" ∨ op = "||" then
          match get_int left_val with
          | .error e => .error e
          | .ok a =>
            match get_int right_val with
            | .error e => .error e
            | .ok b => .ok (EValue.intV (if a ≠ 0 ∨ b ≠ 0 then 1 else 0))
        else .error ("Unknown binary operator: " ++ op)

/-- Run a sequence of `btree_insert` calls from a given state, collecting
the returned booleans (a failed assertion aborts the run, as it aborts the
process). -/
def runInserts : DB → List (KeyVal × KeyVal) → Except String (List Bool × DB)
  | db, [] => .ok ([], db)
  | db, kv :: rest =>
    match btree_insert db kv.1 kv.2 with
    | .error e => .error e
    | .ok (b, db1) =>
      match runInserts db1 rest with
      | .error e => .error e
      | .ok (bs, db2) => .ok (b :: bs, db2)

/-- All keys stored in the subtree rooted at a page: the keys of the
page's own slots, plus (for INTERNAL pages) the keys of the leftmost-child
subtree and of every entry's right-child subtree.  Fuel-bounded. -/
def subtree_keys (db : DB) : Nat → Nat → List KeyVal
  | 0, _ => []
  | Nat.succ f, page_id =>
    let p := read_page db page_id
    match p.page_level with
    | PageLevel.LEAF => p.cells.map Cell.key
    | PageLevel.INTERNAL =>
      p.cells.map Cell.key ++ subtree_keys db f p.reserved0 ++
        ((p.cells.map Cell.child).map (subtree_keys db f)).flatten

/-- The i-th key of the ascending insertion scenario: 254 zero bytes
followed by `[i, 0]` — 256 bytes, the largest size a separator may have,
ordered by `i`.  Every key of the scenarios below shares the 254-zero
prefix, so only the two deciding bytes are stored with the true size
256; `compare_keys` gives the same sign on them as on the full 256-byte
strings. -/
def asckey (i : Nat) : KeyVal := KeyVal.mk [i, 0] 256

/-- A value sized so that a leaf record occupies 2719 bytes: two such
records fill a leaf page beyond the point where a third fits
(2 · (2719 + 2) ≤ 8160 < 3 · (2719 + 2)).  Value bytes are stored and
returned, never compared, so one representative byte stands for the
2459. -/
def bigval : KeyVal := KeyVal.mk [7] 2459

/-- Scenario: 33 ascending inserts of 256-byte keys with 2719-byte
records.  Inserts 1-2 fill the root leaf; every later insert splits the
rightmost leaf and adds one separator to the internal root, which reaches
its 30-entry capacity at insert 32; insert 33 then splits the internal
root. -/
def c1inputs : List (KeyVal × KeyVal) :=
  (List.range 33).map (fun i => (asckey (i + 1), bigval))

/-- The 33-insert run of the ascending scenario. -/
def c1run : Except String (List Bool × DB) := runInserts freshDB c1inputs

/-- After the 33-insert run: did every insert return true, and does
`btree_search` then fail to find key 33?  (`.ok true` exhibits the lost
record.) -/
def c1check : Except String Bool :=
  match c1run with
  | .error e => .error e
  | .ok (rs, db) =>
    match btree_search db (asckey 33) with
    | .error e => .error e
    | .ok r => .ok (rs.all (fun b => b) && r.isNone)

/-- A key strictly between `asckey 17` and `asckey 18`: the shared
254-zero prefix followed by `[17, 5]` (deciding bytes stored, true size
kept). -/
def tkey1 : KeyVal := KeyVal.mk [17, 5] 256

/-- A second key strictly between `tkey1` and `asckey 18`: the shared
prefix followed by `[17, 9]`. -/
def tkey2 : KeyVal := KeyVal.mk [17, 9] 256

/-- A value sized so that the record for `tkey2` (2460 bytes) overflows
the leaf holding `asckey 17` and `tkey1` after the internal-root split
(one representative byte, true size). -/
def midval : KeyVal := KeyVal.mk [3] 2200

/-- Scenario: the 33 ascending inserts, then a small record at `tkey1`
(placed in the leaf that became the new internal page's leftmost child but
whose `parent_page_id` still names the old internal page), then a record
at `tkey2` large enough to split that leaf. -/
def c2inputs : List (KeyVal × KeyVal) :=
  c1inputs ++ [(tkey1, KeyVal.mk [] 0), (tkey2, midval)]

/-- The 35-insert run of the reparenting scenario. -/
def c2run : Except String (List Bool × DB) := runInserts freshDB c2inputs

/-- After the 35-insert run: every insert returned true, the root is an
INTERNAL page whose entry 0 carries separator `asckey 17`, and the subtree
reached through the root's leftmost child contains the key `tkey1`, which
is strictly greater than that separator — a violation of the separator
contract. -/
def c2check : Except String Bool :=
  match c2run with
  | .error e => .error e
  | .ok (rs, db) =>
    let root := read_page db db.root_page
    let sep0 := slot_key root 0
    let leftKeys := subtree_keys db 5 root.reserved0
    .ok (rs.all (fun b => b) &&
      decide (root.page_level = PageLevel.INTERNAL) &&
      decide (sep0 = asckey 17) &&
      leftKeys.contains tkey1 &&
      decide (0 < compare_keys tkey1.data sep0.data))

/-- Scenario: a single oversized record (8151 bytes: 1-byte key, 8146-byte
value, leaving 7 free bytes on the root leaf) followed by a small record
that does not fit, forcing a split of a one-record leaf. -/
def c5inputs : List (KeyVal × KeyVal) :=
  [(KeyVal.mk [75] 1, KeyVal.mk [65] 8146),
   (KeyVal.mk [97] 1, KeyVal.mk [1] 1)]

/-- The oversized-record run. -/
def c5run : Except String (List Bool × DB) := runInserts freshDB c5inputs

/-- The boolean results of the oversized-record run (the state component
is dropped so the outcome is comparable). -/
def c5outcome : Except String (List Bool) :=
  match c5run with
  | .error e => .error e
  | .ok (rs, _) => .ok rs

/-- Decidable equality of `Except` results (both components decidable). -/
instance exceptDecEq {e a : Type} [DecidableEq e] [DecidableEq a] :
    DecidableEq (Except e a) :=
  fun x y =>
    match x, y with
    | .error u, .error v =>
      if h : u = v then .isTrue (h ▸ rfl) else .isFalse (fun he => h (Except.error.inj he))
    | .ok u, .ok v =>
      if h : u = v then .isTrue (h ▸ rfl) else .isFalse (fun he => h (Except.ok.inj he))
    | .error _, .ok _ => .isFalse (fun he => Except.noConfusion he)
    | .ok _, .error _ => .isFalse (fun he => Except.noConfusion he)

/-- The position described by the spec for `internal_find_child`: the
smallest slot index `i` such that `key < key_i`, and `cell_count` if the
key is `≥` every slot key. -/
def lt_pos (key : KeyVal) : List Cell → Nat
  | [] => 0
  | c :: cs =>
    if compare_keys key.data (Cell.key c).data < 0 then 0
    else 1 + lt_pos key cs

/-- Slot keys strictly ascending in the byte order of `compare_keys`
(spec §4.2 "slot keys are strictly ascending"), as a check of adjacent
slots. -/
def sortedCellsB : List Cell → Bool
  | [] => true
  | [_] => true
  | a :: b :: rest =>
    decide (compare_keys (Cell.key a).data (Cell.key b).data < 0) &&
      sortedCellsB (b :: rest)

/-- A concrete INTERNAL page whose single entry stores the implausible
child page id 2000000 (with a perfectly valid leftmost child): the
rightmost-child branch of `internal_find_child` returns the stored id
without any validity check. -/
def bigChildPage : Page :=
  { page_id := 9
    parent_page_id := 0
    page_type := PageType.INDEX
    page_level := PageLevel.INTERNAL
    free_start := 39
    root_page := 0
    reserved0 := 1
    cells := [Cell.internalRec (KeyVal.mk [5] 1) 2000000] }

/-- A concrete INTERNAL page that names itself as its only child: the
descent from it never reaches a leaf. -/
def loop_page : Page :=
  { page_id := 1
    parent_page_id := 0
    page_type := PageType.INDEX
    page_level := PageLevel.INTERNAL
    free_start := 39
    root_page := 0
    reserved0 := 1
    cells := [Cell.internalRec (KeyVal.mk [5] 1) 1] }

/-- A database whose root page is the self-referential internal page:
every descent step stays on page 1. -/
def loopDB : DB :=
  { disk := [(1, loop_page)]
    root_page := 1
    next_free_page_id := 2 }

/-- An internal root that dispatches every key to leaf 6. -/
def chain_root : Page :=
  { page_id := 5
    parent_page_id := 0
    page_type := PageType.INDEX
    page_level := PageLevel.INTERNAL
    free_start := 39
    root_page := 0
    reserved0 := 6
    cells := [Cell.internalRec (KeyVal.mk [5] 1) 6] }

/-- A leaf holding the single record `[7] ↦ [1]`. -/
def chain_leaf : Page :=
  { page_id := 6
    parent_page_id := 5
    page_type := PageType.DATA
    page_level := PageLevel.LEAF
    free_start := 38
    root_page := 0
    reserved0 := 0
    cells := [Cell.leafRec (KeyVal.mk [7] 1) (KeyVal.mk [1] 1)] }

/-- A two-level database: internal root 5 dispatches every key to leaf 6. -/
def chainDB : DB :=
  { disk := [(5, chain_root), (6, chain_leaf)]
    root_page := 5
    next_free_page_id := 7 }

/-- A concrete INTERNAL page with four entries, used to exhibit the shape
of `split_internal_page` (mid = 2). -/
def c4page : Page :=
  { page_id := 9
    parent_page_id := 0
    page_type := PageType.INDEX
    page_level := PageLevel.INTERNAL
    free_start := 65
    root_page := 0
    reserved0 := 7
    cells := [Cell.internalRec (KeyVal.mk [1] 1) 11,
              Cell.internalRec (KeyVal.mk [2] 1) 12,
              Cell.internalRec (KeyVal.mk [3] 1) 13,
              Cell.internalRec (KeyVal.mk [4] 1) 14] }

/-- A database holding `c4page` as page 9 (plus stub pages 11-14 standing
for its children, which `split_internal_page` reparents). -/
def c4db : DB :=
  { disk := [(9, c4page),
             (11, init_page 11 PageType.DATA PageLevel.LEAF),
             (12, init_page 12 PageType.DATA PageLevel.LEAF),
             (13, init_page 13 PageType.DATA PageLevel.LEAF),
             (14, init_page 14 PageType.DATA PageLevel.LEAF)]
    root_page := 9
    next_free_page_id := 15 }

/-- The split result `split_internal_page c4db c4page` produces. -/
def c4res : SplitLeafResult :=
  { new_page := 15, seperator_key := KeyVal.mk [3] 1 }

/-- The left page `split_internal_page c4db c4page` produces: only the
entries below mid = 2 remain. -/
def c4p2 : Page :=
  { page_id := 9
    parent_page_id := 0
    page_type := PageType.INDEX
    page_level := PageLevel.INTERNAL
    free_start := 65
    root_page := 0
    reserved0 := 7
    cells := [Cell.internalRec (KeyVal.mk [1] 1) 11,
              Cell.internalRec (KeyVal.mk [2] 1) 12] }

/-- The database `split_internal_page c4db c4page` produces: the new
INTERNAL page 15 holds entry `([4], 14)` with leftmost child 13, and the
moved child 14 was reparented to page 15. -/
def c4db2 : DB :=
  { disk := (15, { page_id := 15
                   parent_page_id := 0
                   page_type := PageType.INDEX
                   page_level := PageLevel.INTERNAL
                   free_start := 39
                   root_page := 0
                   reserved0 := 13
                   cells := [Cell.internalRec (KeyVal.mk [4] 1) 14] }) ::
      (14, { page_id := 14
             parent_page_id := 15
             page_type := PageType.DATA
             page_level := PageLevel.LEAF
             free_start := 32
             root_page := 0
             reserved0 := 0
             cells := [] }) :: c4db.disk
    root_page := 9
    next_free_page_id := 16 }

/-- A concrete LEAF page with three records, used to exhibit the shape of
`split_leaf_page` (split_index = 1). -/
def c7page : Page :=
  { page_id := 7
    parent_page_id := 0
    page_type := PageType.DATA
    page_level := PageLevel.LEAF
    free_start := 50
    root_page := 0
    reserved0 := 0
    cells := [Cell.leafRec (KeyVal.mk [1] 1) (KeyVal.mk [9] 1),
              Cell.leafRec (KeyVal.mk [2] 1) (KeyVal.mk [8] 1),
              Cell.leafRec (KeyVal.mk [3] 1) (KeyVal.mk [7] 1)] }

/-- A database holding `c7page` as its root leaf. -/
def c7db : DB :=
  { disk := [(7, c7page)], root_page := 7, next_free_page_id := 8 }

/-- The split result `split_leaf_page c7db c7page` produces. -/
def c7res : SplitLeafResult :=
  { new_page := 8, seperator_key := KeyVal.mk [2] 1 }

/-- The left page `split_leaf_page c7db c7page` produces: only the record
below split_index = 1 remains. -/
def c7p2 : Page :=
  { page_id := 7
    parent_page_id := 0
    page_type := PageType.DATA
    page_level := PageLevel.LEAF
    free_start := 50
    root_page := 0
    reserved0 := 0
    cells := [Cell.leafRec (KeyVal.mk [1] 1) (KeyVal.mk [9] 1)] }

/-- The database `split_leaf_page c7db c7page` produces: the new LEAF
page 8 received the two upper records. -/
def c7db2 : DB :=
  { disk := (8, { page_id := 8
                  parent_page_id := 0
                  page_type := PageType.DATA
                  page_level := PageLevel.LEAF
                  free_start := 44
                  root_page := 0
                  reserved0 := 0
                  cells := [Cell.leafRec (KeyVal.mk [2] 1) (KeyVal.mk [8] 1),
                            Cell.leafRec (KeyVal.mk [3] 1) (KeyVal.mk [7] 1)] }) :: c7db.disk
    root_page := 7
    next_free_page_id := 9 }

/-- C1.  The round-trip law fails on the code: running the 33 ascending
inserts of `c1inputs` against a fresh table, every single `btree_insert`
returns true, yet `btree_search` for the 33rd key afterwards returns
"absent".  (Insert 33 splits the rightmost leaf; the resulting separator
overflows the internal root; `insert_into_parent` splits the root and
drops the pending `(separator, right leaf)` entry, orphaning the leaf that
holds keys 32 and 33.) -/
theorem c1_insert_true_search_absent : c1check = .ok true := by decide!

/-- C2.  The separator-contract invariant fails on the code: after the 35
successful inserts of `c2inputs`, the root's entry 0 carries separator
`asckey 17`, but the subtree reached through the root's leftmost child
contains `tkey1 > asckey 17`.  (The internal-root split made leaf 18 the
new right page's leftmost child without updating its `parent_page_id`, so
the later split of leaf 18 filed its separator under the old parent, which
lives in the left subtree.) -/
theorem c2_separator_contract_violated : c2check = .ok true := by decide!

/-- C5.  The claimed oversized-record handling is unreachable: on a fresh
table, inserting one 8151-byte record and then a small record that does
not fit makes `split_leaf_page` fail its `cell_count >= 2` assertion
instead of moving the oversized record to the right page. -/
theorem c5_single_record_split_asserts :
    c5outcome = .error "assert: Cannot split page with less than 2 elements" := by decide!

/-- C9 counterexample.  `internal_find_child` does NOT refuse to return an
id `≥ 1000000`: on `bigChildPage` (whose single entry stores child
2000000) a key above the only separator takes the rightmost-child branch,
which returns the stored id without any check. -/
theorem c9_rightmost_child_unchecked :
    internal_find_child bigChildPage (KeyVal.mk [9] 1) = .ok 2000000 := by decide!

/-- C8.  Bounded descent: for every database, key, fuel and entry page,
the descent loop terminates with one of three outcomes: a failed assertion
inside `internal_find_child`, the failure sentinel `UINT32_MAX`, or a page
id whose page is a LEAF page; and on a concrete database whose root is an
internal page pointing back at itself, the depth bound stops the descent
and `find_leaf_page` reports the sentinel `UINT32_MAX`. -/
theorem c8_find_leaf_bounded :
    (∀ (db : DB) (key : KeyVal) (fuel page_id : Nat),
      (∃ e, findLeafAux db key fuel page_id = .error e) ∨
      (∃ p, findLeafAux db key fuel page_id = .ok (UINT32_MAX, p)) ∨
      (∃ lid, findLeafAux db key fuel page_id = .ok (lid, read_page db lid) ∧
        (read_page db lid).page_level = PageLevel.LEAF)) ∧
    find_leaf_page loopDB (KeyVal.mk [9] 1) = .ok (UINT32_MAX, loop_page) := by
  constructor
  · intro db key fuel
    induction fuel with
    | zero =>
      intro page_id
      simp only [findLeafAux, findLeafBody]
      by_cases h1 : (read_page db page_id).page_level = PageLevel.LEAF
      · exact Or.inr (Or.inr ⟨page_id, by simp [h1], h1⟩)
      · simp only [if_neg h1]
        match hifc : internal_find_child (read_page db page_id) key with
        | .error e => exact Or.inl ⟨e, rfl⟩
        | .ok next =>
          by_cases h2 : next = 0 ∨ 1000000 ≤ next
          · exact Or.inr (Or.inl ⟨read_page db page_id, by simp [h2]⟩)
          · exact Or.inr (Or.inl ⟨read_page db page_id, by simp [h2]⟩)
    | succ f ih =>
      intro page_id
      simp only [findLeafAux, findLeafBody]
      by_cases h1 : (read_page db page_id).page_level = PageLevel.LEAF
      · exact Or.inr (Or.inr ⟨page_id, by simp [h1], h1⟩)
      · simp only [if_neg h1]
        match hifc : internal_find_child (read_page db page_id) key with
        | .error e => exact Or.inl ⟨e, rfl⟩
        | .ok next =>
          by_cases h2 : next = 0 ∨ 1000000 ≤ next
          · exact Or.inr (Or.inl ⟨read_page db page_id, by simp [h2]⟩)
          · simpa [h2] using ih next
  · decide!

/-- C9 (amended).  The instrumented descent agrees with `findLeafAux`, and
every page id it passes to `read_page` is either the entry page itself or
lies strictly between 0 and 1,000,000: `find_leaf_page` checks every child
id before descending (leaf.cpp lines 23-25), so the descent of
`btree_search` / `btree_insert` never reads a page with id ≥ 1,000,000
even though `internal_find_child`'s rightmost branch can return one. -/
theorem c9_descent_reads_bounded :
    (∀ (db : DB) (key : KeyVal) (fuel page_id : Nat),
      (findLeafAuxReads db key fuel page_id).1 = findLeafAux db key fuel page_id) ∧
    (∀ (db : DB) (key : KeyVal) (fuel page_id x : Nat),
      x ∈ (findLeafAuxReads db key fuel page_id).2 →
      x = page_id ∨ (0 < x ∧ x < 1000000)) := by
  constructor
  · intro db key fuel
    induction fuel with
    | zero => intro page_id; simp [findLeafAuxReads, findLeafAux]
    | succ f ih =>
      intro page_id
      simp only [findLeafAuxReads, findLeafAux, findLeafBody]
      by_cases h1 : (read_page db page_id).page_level = PageLevel.LEAF
      · simp [h1]
      · simp only [if_neg h1]
        match hifc : internal_find_child (read_page db page_id) key with
        | .error e => rfl
        | .ok next =>
          by_cases h2 : next = 0 ∨ 1000000 ≤ next
          · simp [h2]
          · simpa [h2] using ih next
  · intro db key fuel
    induction fuel with
    | zero =>
      intro page_id x hx
      simp only [findLeafAuxReads, List.mem_singleton] at hx
      exact Or.inl hx
    | succ f ih =>
      intro page_id x hx
      simp only [findLeafAuxReads] at hx
      by_cases h1 : (read_page db page_id).page_level = PageLevel.LEAF
      · simp [h1] at hx
        exact Or.inl hx
      · simp only [if_neg h1] at hx
        match hifc : internal_find_child (read_page db page_id) key with
        | .error e =>
          simp [hifc] at hx
          exact Or.inl hx
        | .ok next =>
          by_cases h2 : next = 0 ∨ 1000000 ≤ next
          · simp [hifc, h2] at hx
            exact Or.inl hx
          · simp only [hifc, if_neg h2, List.mem_cons] at hx
            rcases hx with hx | hx
            · exact Or.inl hx
            · rcases ih next x hx with h | h
              · right
                omega
              · exact Or.inr h

/-- C9 witness: on the two-level database, the descent from page 5 reads
page 6, which the amended bound classifies as a valid page id. -/
theorem c9_descent_reads_bounded_witness :
    6 ∈ (findLeafAuxReads chainDB (KeyVal.mk [9] 1) 100 5).2 ∧
      (6 = 5 ∨ (0 < 6 ∧ 6 < 1000000)) :=
  ⟨by decide!, c9_descent_reads_bounded.2 chainDB (KeyVal.mk [9] 1) 100 5 6 (by decide!)⟩

/-- `get_int` succeeds exactly on the int alternative. -/
theorem get_int_ok_iff (v : EValue) (n : Int) : get_int v = .ok n ↔ v = EValue.intV n := by
  cases v <;> simp [get_int]

/-- C10.  The division guard of `evaluate_expr`: whenever both operands of
a `/` node evaluate (left first, as the code does) and the right operand
yields integer 0, the node raises "Division by zero"; and whenever a `/`
node yields a value at all, both operands were ints, the divisor was
nonzero and the value is the truncated quotient — no unguarded division is
reachable. -/
theorem c10_division_guard :
    (∀ (l r : Expr) (t : List EValue) (cols : List String) (lv : EValue),
      evaluate_expr l t cols = .ok lv →
      evaluate_expr r t cols = .ok (EValue.intV 0) →
      evaluate_expr (Expr.binary "/" l r) t cols = .error "Division by zero") ∧
    (∀ (l r : Expr) (t : List EValue) (cols : List String) (v : EValue),
      evaluate_expr (Expr.binary "/" l r) t cols = .ok v →
      ∃ a b : Int, evaluate_expr l t cols = .ok (EValue.intV a) ∧
        evaluate_expr r t cols = .ok (EValue.intV b) ∧ b ≠ 0 ∧
        v = EValue.intV (Int.tdiv a b)) := by
  constructor
  · intro l r t cols lv hl hr
    simp [evaluate_expr, hl, hr, get_int]
  · intro l r t cols v hv
    simp only [evaluate_expr] at hv
    match hl : evaluate_expr l t cols with
    | .error e => simp [hl] at hv
    | .ok lv =>
      match hr : evaluate_expr r t cols with
      | .error e => simp [hl, hr] at hv
      | .ok rv =>
        simp only [hl, hr] at hv
        norm_num at hv
        match hb : get_int rv with
        | .error e => simp [hb] at hv
        | .ok b =>
          simp only [hb] at hv
          by_cases hb0 : b = 0
          · simp [hb0] at hv
          · simp only [if_neg hb0] at hv
            match ha : get_int lv with
            | .error e => simp [ha] at hv
            | .ok a =>
              simp only [ha] at hv
              refine ⟨a, b, ?_, ?_, hb0, ?_⟩
              · exact congrArg Except.ok ((get_int_ok_iff lv a).mp ha)
              · exact congrArg Except.ok ((get_int_ok_iff rv b).mp hb)
              · cases hv
                rfl

/-- C10 witness: `6 / 0` raises "Division by zero"; `7 / 2` divides. -/
theorem c10_division_guard_witness :
    evaluate_expr (Expr.binary "/" (Expr.number 6) (Expr.number 0)) [] [] =
      .error "Division by zero" ∧
    evaluate_expr (Expr.binary "/" (Expr.number 7) (Expr.number 2)) [] [] =
      .ok (EValue.intV 3) :=
  ⟨c10_division_guard.1 (Expr.number 6) (Expr.number 0) [] [] (EValue.intV 6) rfl rfl,
   by decide!⟩

/-- Reading back the page just written. -/
theorem read_page_write_page (db : DB) (page_id : Nat) (p : Page) :
    read_page (write_page db page_id p) page_id = p := by
  simp [read_page, write_page, disk_lookup]

/-- The copy loop of `split_leaf_page` appends exactly the given records
to the new page's directory and touches no other observable field. -/
theorem copy_records_fields :
    ∀ (cs : List Cell) (np np2 : Page), copy_records_to_new np cs = .ok np2 →
      np2.cells = np.cells ++ cs ∧ np2.page_id = np.page_id ∧
      np2.parent_page_id = np.parent_page_id ∧ np2.page_level = np.page_level ∧
      np2.reserved0 = np.reserved0 ∧ np2.root_page = np.root_page := by
  intro cs
  induction cs with
  | nil =>
    intro np np2 h
    simp only [copy_records_to_new, Except.ok.injEq] at h
    subst h
    simp
  | cons c cs ih =>
    intro np np2 h
    simp only [copy_records_to_new] at h
    cases hins : insert_slot (write_raw_record np (Cell.size c)).1
        (cell_count (write_raw_record np (Cell.size c)).1) c with
    | error e =>
      rw [hins] at h
      simp at h
    | ok np1 =>
      rw [hins] at h
      have h2 : copy_records_to_new np1 cs = .ok np2 := h
      simp only [insert_slot, write_raw_record, cell_count, Nat.lt_irrefl, if_false] at hins
      split at hins
      next hsp =>
        rcases Except.ok.inj hins with rfl
        have := ih _ _ h2
        simpa [List.take_length, List.drop_length, List.append_assoc] using this
      next hsp => exact absurd hins (by simp)

/-- The copy loop of `split_internal_page` appends exactly the given
entries to the new page's directory; the child reparenting writes touch
only the disk. -/
theorem copy_entries_fields :
    ∀ (cs : List Cell) (np : Page) (db : DB) (r : Page × DB),
      copy_entries_reparent np db cs = .ok r →
      r.1.cells = np.cells ++ cs ∧ r.1.page_id = np.page_id ∧
      r.1.parent_page_id = np.parent_page_id ∧ r.1.page_level = np.page_level ∧
      r.1.reserved0 = np.reserved0 ∧ r.1.root_page = np.root_page := by
  intro cs
  induction cs with
  | nil =>
    intro np db r h
    simp only [copy_entries_reparent, Except.ok.injEq] at h
    subst h
    simp
  | cons c cs ih =>
    intro np db r h
    simp only [copy_entries_reparent] at h
    cases hins : insert_slot (write_raw_record np (Cell.size c)).1
        (cell_count (write_raw_record np (Cell.size c)).1) c with
    | error e =>
      rw [hins] at h
      simp at h
    | ok np1 =>
      rw [hins] at h
      have h2 : copy_entries_reparent np1
          (write_page db (Cell.child c)
            { read_page db (Cell.child c) with parent_page_id := np1.page_id }) cs = .ok r := h
      simp only [insert_slot, write_raw_record, cell_count, Nat.lt_irrefl, if_false] at hins
      split at hins
      next hsp =>
        rcases Except.ok.inj hins with rfl
        have := ih _ _ _ h2
        simpa [List.take_length, List.drop_length, List.append_assoc] using this
      next hsp => exact absurd hins (by simp)

/-- The removal loop of both split routines: removing the last slot
`count` times from a directory of length `low + count` leaves exactly the
first `low` slots (and changes nothing else on the page). -/
theorem remove_back_take :
    ∀ (count : Nat) (p : Page) (low : Nat) (p2 : Page),
      low + count = p.cells.length →
      remove_back_slots p low count = .ok p2 →
      p2 = { p with cells := p.cells.take low } := by
  intro count
  induction count with
  | zero =>
    intro p low p2 hlen h
    simp only [remove_back_slots, Except.ok.injEq] at h
    subst h
    have hl : low = p.cells.length := by omega
    subst hl
    cases p
    simp
  | succ j ih =>
    intro p low p2 hlen h
    simp only [remove_back_slots, cell_count] at h
    have hne : ¬ p.cells.length = 0 := by omega
    rw [if_neg hne] at h
    have hle : low ≤ p.cells.length - 1 := by omega
    rw [if_pos hle] at h
    simp only [remove_slot] at h
    have hidx : ¬ p.cells.length < (p.cells.length - 1) + 1 := by omega
    rw [if_neg hidx] at h
    have herase : p.cells.eraseIdx (p.cells.length - 1) = p.cells.take (low + j) := by
      rw [List.eraseIdx_eq_take_drop_succ]
      have h1 : p.cells.length - 1 = low + j := by omega
      rw [h1]
      have h2 : p.cells.drop (low + j + 1) = [] := by
        apply List.drop_eq_nil_of_le
        omega
      rw [h2, List.append_nil]
    rw [herase] at h
    have := ih { p with cells := p.cells.take (low + j) } low p2
      (by simp [List.length_take]; omega) h
    rw [this]
    simp [List.take_take, Nat.min_eq_left (by omega : low ≤ low + j)]

/-- C4 (amended).  The shape of `split_internal_page` on every successful
call: the call requires at least 2 entries; the separator is the key at
slot `mid = cell_count / 2` of the original page; the left page keeps
exactly the entries below `mid` (slot `mid` itself IS removed); the new
page holds exactly the entries `mid+1 … cell_count-1`, is INTERNAL, and
its leftmost-child pointer is `entry[mid].child_page`. -/
theorem c4_split_internal_shape :
    ∀ (db : DB) (p : Page) (res : SplitLeafResult) (p2 : Page) (db2 : DB),
      split_internal_page db p = .ok (res, p2, db2) →
      2 ≤ cell_count p ∧
      res.seperator_key = Cell.key (p.cells.getD (cell_count p / 2) defaultCell) ∧
      p2.cells = p.cells.take (cell_count p / 2) ∧
      (read_page db2 res.new_page).cells = p.cells.drop (cell_count p / 2 + 1) ∧
      (read_page db2 res.new_page).reserved0 =
        Cell.child (p.cells.getD (cell_count p / 2) defaultCell) ∧
      (read_page db2 res.new_page).page_level = PageLevel.INTERNAL := by
  intro db p res p2 db2 h
  simp only [split_internal_page, allocate_page] at h
  by_cases hlvl : p.page_level ≠ PageLevel.INTERNAL
  · rw [if_pos hlvl] at h
    simp at h
  rw [if_neg hlvl] at h
  by_cases htot : cell_count p < 2
  · rw [if_pos htot] at h
    simp at h
  rw [if_neg htot] at h
  by_cases hsep : 256 < (slot_key p (cell_count p / 2)).size
  · rw [if_pos hsep] at h
    simp at h
  rw [if_neg hsep] at h
  cases hcopy : copy_entries_reparent (init_page db.next_free_page_id PageType.INDEX PageLevel.INTERNAL)
      { db with next_free_page_id := db.next_free_page_id + 1 }
      (p.cells.drop (cell_count p / 2 + 1)) with
  | error e =>
    rw [hcopy] at h
    simp at h
  | ok npdb =>
    rw [hcopy] at h
    cases hrem : remove_back_slots p (cell_count p / 2) (cell_count p - cell_count p / 2) with
    | error e =>
      rw [hrem] at h
      simp at h
    | ok page1 =>
      rw [hrem] at h
      have hcf := copy_entries_fields _ _ _ _ hcopy
      have hmid : cell_count p / 2 < cell_count p := by
        have : 2 ≤ cell_count p := by omega
        omega
      have hrt := remove_back_take (cell_count p - cell_count p / 2) p (cell_count p / 2) page1
        (by simp only [cell_count]; omega) hrem
      simp only [if_pos hmid] at h
      simp only [Except.ok.injEq, Prod.mk.injEq] at h
      obtain ⟨hres, hp2, hdb2⟩ := h
      subst hres hp2 hdb2
      obtain ⟨hc1, hc2, hc3, hc4, hc5, hc6⟩ := hcf
      simp only [init_page, List.nil_append] at hc1 hc2 hc3 hc4 hc5 hc6
      refine ⟨by omega, ?_, ?_, ?_, ?_, ?_⟩
      · simp [slot_key]
      · simp [hrt]
      · rw [read_page_write_page]
        by_cases hnl : (p.cells[cell_count p / 2]?.getD defaultCell).child = 0 <;>
          simp [List.getD, hnl, hc1]
      · rw [read_page_write_page]
        by_cases hnl : (p.cells[cell_count p / 2]?.getD defaultCell).child = 0 <;>
          simp [List.getD, hnl, hc5]
      · rw [read_page_write_page]
        by_cases hnl : (p.cells[cell_count p / 2]?.getD defaultCell).child = 0 <;>
          simp [List.getD, hnl, hc4]

/-- C4 counterexample.  On the concrete 4-entry internal page `c4page`
(mid = 2), the left page after `split_internal_page` holds exactly the two
entries below mid; the entry that was at slot mid — `([3], 13)` — is NOT
contained in the left page, contrary to the claim that slot mid is not
removed. -/
theorem c4_slot_mid_removed :
    (match split_internal_page c4db c4page with
      | .ok (_res, p2, _db2) =>
        decide (p2.cells = [Cell.internalRec (KeyVal.mk [1] 1) 11,
                            Cell.internalRec (KeyVal.mk [2] 1) 12]) &&
          !(p2.cells.contains (Cell.internalRec (KeyVal.mk [3] 1) 13))
      | .error _ => false) = true := by decide!

/-- C4 witness: the amended shape theorem applied to the concrete split of
`c4page`. -/
theorem c4_split_internal_shape_witness :
    2 ≤ cell_count c4page ∧
    c4res.seperator_key = Cell.key (c4page.cells.getD (cell_count c4page / 2) defaultCell) ∧
    c4p2.cells = c4page.cells.take (cell_count c4page / 2) ∧
    (read_page c4db2 c4res.new_page).cells = c4page.cells.drop (cell_count c4page / 2 + 1) ∧
    (read_page c4db2 c4res.new_page).reserved0 =
      Cell.child (c4page.cells.getD (cell_count c4page / 2) defaultCell) ∧
    (read_page c4db2 c4res.new_page).page_level = PageLevel.INTERNAL :=
  c4_split_internal_shape c4db c4page c4res c4p2 c4db2 (by decide!)

/-- C7.  The shape of `split_leaf_page` on every successful call: the call
requires at least 2 records; `split_index` is `cell_count / 2` clamped to
at least 1; the left page keeps exactly the records below `split_index`;
the new page is a LEAF holding exactly the records from `split_index` on;
and the separator is the key of slot 0 of the new page, or of slot 0 of
the original page if the new page ended up empty. -/
theorem c7_split_leaf_shape :
    ∀ (db : DB) (p : Page) (res : SplitLeafResult) (p2 : Page) (db2 : DB),
      split_leaf_page db p = .ok (res, p2, db2) →
      2 ≤ cell_count p ∧
      p2.cells = p.cells.take (if cell_count p / 2 = 0 then 1 else cell_count p / 2) ∧
      (read_page db2 res.new_page).cells =
        p.cells.drop (if cell_count p / 2 = 0 then 1 else cell_count p / 2) ∧
      (read_page db2 res.new_page).page_level = PageLevel.LEAF ∧
      res.seperator_key =
        (if 0 < cell_count (read_page db2 res.new_page) then
          slot_key (read_page db2 res.new_page) 0 else slot_key p2 0) := by
  intro db p res p2 db2 h
  simp only [split_leaf_page, allocate_page] at h
  by_cases hlvl : p.page_level ≠ PageLevel.LEAF
  · rw [if_pos hlvl] at h
    simp at h
  rw [if_neg hlvl] at h
  by_cases hval : p.free_start < HEADER_SIZE ∨ PAGE_SIZE ≤ p.free_start ∨
      free_end p < HEADER_SIZE ∨ PAGE_SIZE < free_end p ∨ free_end p < p.free_start
  · rw [if_pos hval] at h
    simp at h
  rw [if_neg hval] at h
  by_cases htot : cell_count p < 2
  · rw [if_pos htot] at h
    simp at h
  rw [if_neg htot] at h
  have hsi : (if cell_count p / 2 = 0 then 1 else cell_count p / 2) = cell_count p / 2 := by
    have h1 : ¬ cell_count p / 2 = 0 := by omega
    rw [if_neg h1]
  rw [hsi] at h ⊢
  cases hcopy : copy_records_to_new
      { init_page db.next_free_page_id PageType.DATA PageLevel.LEAF with
          parent_page_id := p.parent_page_id }
      (p.cells.drop (cell_count p / 2)) with
  | error e =>
    rw [hcopy] at h
    simp at h
  | ok np2 =>
    rw [hcopy] at h
    cases hrem : remove_back_slots p (cell_count p / 2) (cell_count p - cell_count p / 2) with
    | error e =>
      rw [hrem] at h
      simp at h
    | ok page1 =>
      rw [hrem] at h
      have hcf := copy_records_fields _ _ _ hcopy
      have hrt := remove_back_take (cell_count p - cell_count p / 2) p (cell_count p / 2) page1
        (by simp only [cell_count]; omega) hrem
      dsimp only at h
      by_cases hsep : 256 < (if 0 < cell_count np2 then slot_key np2 0 else slot_key page1 0).size
      · rw [if_pos hsep] at h
        simp at h
      rw [if_neg hsep] at h
      simp only [Except.ok.injEq, Prod.mk.injEq] at h
      obtain ⟨hres, hp2, hdb2⟩ := h
      subst hres hp2 hdb2
      obtain ⟨hc1, hc2, hc3, hc4, hc5, hc6⟩ := hcf
      simp only [init_page, List.nil_append] at hc1 hc2 hc3 hc4 hc5 hc6
      rw [read_page_write_page]
      refine ⟨by omega, by simp [hrt], hc1, hc4, rfl⟩

/-- C7 witness: the shape theorem applied to the concrete split of
`c7page`. -/
theorem c7_split_leaf_shape_witness :
    2 ≤ cell_count c7page ∧
    c7p2.cells = c7page.cells.take (if cell_count c7page / 2 = 0 then 1 else cell_count c7page / 2) ∧
    (read_page c7db2 c7res.new_page).cells =
      c7page.cells.drop (if cell_count c7page / 2 = 0 then 1 else cell_count c7page / 2) ∧
    (read_page c7db2 c7res.new_page).page_level = PageLevel.LEAF ∧
    c7res.seperator_key =
      (if 0 < cell_count (read_page c7db2 c7res.new_page) then
        slot_key (read_page c7db2 c7res.new_page) 0 else slot_key c7p2 0) :=
  c7_split_leaf_shape c7db c7page c7res c7p2 c7db2 (by decide!)

/-- Lexicographic byte comparison is transitive in its strict part. -/
theorem compare_keys_lt_trans :
    ∀ (a b c : List Nat), compare_keys a b < 0 → compare_keys b c < 0 →
      compare_keys a c < 0 := by
  intro a
  induction a with
  | nil =>
    intro b c h1 h2
    cases b with
    | nil => simp [compare_keys] at h1
    | cons y ys =>
      cases c with
      | nil => simp [compare_keys] at h2
      | cons z zs => simp [compare_keys]
  | cons x xs ih =>
    intro b c h1 h2
    cases b with
    | nil => simp [compare_keys] at h1
    | cons y ys =>
      cases c with
      | nil => simp [compare_keys] at h2
      | cons z zs =>
        simp only [compare_keys] at h1 h2 ⊢
        split_ifs at h1 h2 ⊢ <;> try omega
        all_goals exact ih _ _ (by assumption) (by assumption)

/-- The tail of a sorted directory is sorted. -/
theorem sortedCellsB_tail :
    ∀ (c : Cell) (cells : List Cell), sortedCellsB (c :: cells) = true →
      sortedCellsB cells = true := by
  intro c cells h
  cases cells with
  | nil => rfl
  | cons b rest =>
    simp only [sortedCellsB, Bool.and_eq_true] at h
    exact h.2

/-- In a sorted directory, the head key is below every tail key. -/
theorem sortedCellsB_head_lt :
    ∀ (rest : List Cell) (a : Cell), sortedCellsB (a :: rest) = true →
      ∀ j, j < rest.length →
        compare_keys (Cell.key a).data (Cell.key (rest.getD j defaultCell)).data < 0 := by
  intro rest
  induction rest with
  | nil =>
    intro a _ j hj
    simp at hj
  | cons b rest ih =>
    intro a h j hj
    simp only [sortedCellsB, Bool.and_eq_true, decide_eq_true_eq] at h
    cases j with
    | zero => simpa using h.1
    | succ j =>
      simp only [List.getD_cons_succ]
      exact compare_keys_lt_trans _ _ _ h.1 (ih b h.2 j (by simpa using hj))

/-- In a sorted directory, keys at increasing slot indices strictly
increase. -/
theorem sortedCellsB_getD_lt :
    ∀ (cells : List Cell), sortedCellsB cells = true →
      ∀ i j, i < j → j < cells.length →
        compare_keys (Cell.key (cells.getD i defaultCell)).data
          (Cell.key (cells.getD j defaultCell)).data < 0 := by
  intro cells
  induction cells with
  | nil =>
    intro _ i j _ hj
    simp at hj
  | cons a rest ih =>
    intro h i j hij hj
    cases i with
    | zero =>
      cases j with
      | zero => omega
      | succ j =>
        simp only [List.getD_cons_zero, List.getD_cons_succ]
        exact sortedCellsB_head_lt rest a h j (by simpa using hj)
    | succ i =>
      cases j with
      | zero => omega
      | succ j =>
        simp only [List.getD_cons_succ]
        exact ih (sortedCellsB_tail a rest h) i j (by omega) (by simpa using hj)

/-- `lt_pos` never exceeds the directory length. -/
theorem lt_pos_le_length : ∀ (key : KeyVal) (cells : List Cell),
    lt_pos key cells ≤ cells.length := by
  intro key cells
  induction cells with
  | nil => simp [lt_pos]
  | cons c cs ih =>
    simp only [lt_pos]
    split_ifs
    · simp
    · simp
      omega

/-- Below `lt_pos` the search key is not below the slot key. -/
theorem lt_pos_not_lt : ∀ (key : KeyVal) (cells : List Cell) (i : Nat),
    i < lt_pos key cells →
    ¬ compare_keys key.data (Cell.key (cells.getD i defaultCell)).data < 0 := by
  intro key cells
  induction cells with
  | nil =>
    intro i hi
    simp [lt_pos] at hi
  | cons c cs ih =>
    intro i hi
    simp only [lt_pos] at hi
    split_ifs at hi with hc
    · omega
    · cases i with
      | zero => simpa using hc
      | succ i =>
        simp only [List.getD_cons_succ]
        exact ih i (by omega)

/-- At `lt_pos` (when it hits a slot) the search key is below the slot
key. -/
theorem lt_pos_hit : ∀ (key : KeyVal) (cells : List Cell),
    lt_pos key cells < cells.length →
    compare_keys key.data (Cell.key (cells.getD (lt_pos key cells) defaultCell)).data < 0 := by
  intro key cells
  induction cells with
  | nil => simp [lt_pos]
  | cons c cs ih =>
    intro h
    simp only [lt_pos] at h ⊢
    split_ifs at h ⊢ with hc
    · simpa using hc
    · have h2 : lt_pos key cs < cs.length := by
        simp only [List.length_cons] at h
        omega
      have h1 : 1 + lt_pos key cs = lt_pos key cs + 1 := by omega
      rw [h1]
      simp only [List.getD_cons_succ]
      exact ih h2

/-- The binary-search loop computes `lt_pos`: on a sorted directory, with
enough fuel and the loop invariants (everything left of `left` is not
above the key; `pos` is an upper bound for the final position that every
above-key slot right of `right` also bounds), the loop returns the
smallest slot index whose key lies above the search key. -/
theorem bsearchPosFuel_correct :
    ∀ (cells : List Cell) (key : KeyVal), sortedCellsB cells = true →
    ∀ (fuel : Nat) (l r pos : Int),
      0 ≤ l →
      r ≤ (cells.length : Int) - 1 →
      (r + 1 - l).toNat < fuel →
      (∀ i : Nat, (i : Int) < l → i < cells.length →
        ¬ compare_keys key.data (Cell.key (cells.getD i defaultCell)).data < 0) →
      (lt_pos key cells : Int) ≤ pos →
      pos ≤ (cells.length : Int) →
      (∀ i : Nat, r < (i : Int) → i < cells.length →
        compare_keys key.data (Cell.key (cells.getD i defaultCell)).data < 0 →
        pos ≤ (i : Int)) →
      bsearchPosFuel cells key fuel l r pos = (lt_pos key cells : Int) := by
  intro cells key hsort fuel
  induction fuel with
  | zero =>
    intro l r pos h0 hr hf hA hB hC hD
    exact absurd hf (Nat.not_lt_zero _)
  | succ f ih =>
    intro l r pos h0 hr hf hA hB hC hD
    simp only [bsearchPosFuel]
    by_cases hlr : l ≤ r
    · rw [if_pos hlr]
      have hml : l ≤ (r + l) / 2 := by omega
      have hmr : (r + l) / 2 ≤ r := by omega
      have hmn : ((r + l) / 2).toNat < cells.length := by omega
      by_cases hcmp : compare_keys key.data
          (Cell.key (cells.getD ((r + l) / 2).toNat defaultCell)).data < 0
      · rw [if_pos hcmp]
        have hBm : (lt_pos key cells : Int) ≤ (r + l) / 2 := by
          by_contra hx
          have hlt : ((r + l) / 2).toNat < lt_pos key cells := by omega
          exact lt_pos_not_lt key cells _ hlt hcmp
        exact ih l ((r + l) / 2 - 1) ((r + l) / 2) h0 (by omega) (by omega) hA hBm
          (by omega) (fun i hi hin hPi => by omega)
      · rw [if_neg hcmp]
        refine ih ((r + l) / 2 + 1) r pos (by omega) hr (by omega) ?_ hB hC hD
        intro i hi hin hPi
        by_cases hil : (i : Int) < l
        · exact hA i hil hin hPi
        · have hile : i ≤ ((r + l) / 2).toNat := by omega
          rcases Nat.lt_or_ge i ((r + l) / 2).toNat with hlt | hge
          · exact hcmp (compare_keys_lt_trans _ _ _ hPi
              (sortedCellsB_getD_lt cells hsort i (((r + l) / 2).toNat) hlt hmn))
          · have : i = ((r + l) / 2).toNat := by omega
            rw [this] at hPi
            exact hcmp hPi
    · rw [if_neg hlr]
      rcases Nat.lt_or_ge (lt_pos key cells) cells.length with hs | hs
      · have hP := lt_pos_hit key cells hs
        have hge : l ≤ (lt_pos key cells : Int) := by
          by_contra hx
          exact hA (lt_pos key cells) (by omega) hs hP
        have hub := hD (lt_pos key cells) (by omega) hs hP
        omega
      · have hsn := lt_pos_le_length key cells
        omega

/-- C6.  Child dispatch of `internal_find_child` on a well-formed INTERNAL
page (sorted slot keys, plausible leftmost-child and entry child ids):
with `pos` the smallest slot index whose key lies strictly above the
search key (`pos = cell_count` when the key is `≥` every slot key), the
function returns the leftmost child stored in the reserved header bytes
when `pos = 0`, and `entry[pos-1].child_page` otherwise — which for
`pos = cell_count` is `entry[cell_count-1].child_page`. -/
theorem c6_internal_find_child_dispatch :
    ∀ (p : Page) (key : KeyVal),
      p.page_level = PageLevel.INTERNAL →
      sortedCellsB p.cells = true →
      0 < p.reserved0 →
      p.reserved0 < 1000000 →
      (∀ c ∈ p.cells, 0 < Cell.child c ∧ Cell.child c < 1000000) →
      internal_find_child p key = .ok
        (if lt_pos key p.cells = 0 then p.reserved0
         else Cell.child (p.cells.getD (lt_pos key p.cells - 1) defaultCell)) := by
  intro p key hlvl hsort hr0 hr1 hch
  have hsle := lt_pos_le_length key p.cells
  have hpos : bsearchPos p.cells key 0 ((cell_count p : Int) - 1) (cell_count p : Int)
      = (lt_pos key p.cells : Int) := by
    apply bsearchPosFuel_correct p.cells key hsort (p.cells.length + 1) 0 _ _ (by omega)
      (by simp only [cell_count]; omega) (by simp only [cell_count]; omega)
      (fun i hi _ _ => by omega)
      (by simp only [cell_count]; omega) (by simp only [cell_count]; omega)
      (fun i hi hin _ => by simp only [cell_count] at hi; omega)
  simp only [internal_find_child, hlvl, ne_eq, not_true_eq_false, if_false, reduceIte,
    hpos, cell_count] at *
  by_cases hs0 : lt_pos key p.cells = 0
  · have hcond : ¬p.reserved0 = 0 ∧ p.reserved0 < 1000000 ∧ ¬p.reserved0 = INVALID_PAGE_ID :=
      ⟨by omega, hr1, by simp only [INVALID_PAGE_ID]; omega⟩
    simp [hs0, hcond]
  · have hne : ¬((lt_pos key p.cells : Int) = 0) := by
      simp only [Nat.cast_eq_zero]
      exact hs0
    by_cases hsn : lt_pos key p.cells = p.cells.length
    · have hlen0 : ¬ p.cells.length = 0 := by omega
      have hcast : ((lt_pos key p.cells : Int)) = (p.cells.length : Int) := by
        exact_mod_cast hsn
      have hnc : ¬((p.cells.length : Int) = 0) := by exact_mod_cast hlen0
      simp [hcast, hnc, hs0, hsn, hlen0]
    · have hlt : lt_pos key p.cells < p.cells.length := by omega
      have hne2 : ¬((lt_pos key p.cells : Int) = (p.cells.length : Int)) := by
        simp only [Nat.cast_inj]
        exact hsn
      have hrange : (0 : Int) < (lt_pos key p.cells : Int) ∧
          (lt_pos key p.cells : Int) ≤ (p.cells.length : Int) := by
        constructor <;> [exact_mod_cast Nat.pos_of_ne_zero hs0; exact_mod_cast hsle]
      have htn : ((lt_pos key p.cells : Int) - 1).toNat = lt_pos key p.cells - 1 := by omega
      have hmem : p.cells.getD (lt_pos key p.cells - 1) defaultCell ∈ p.cells := by
        have h1 : lt_pos key p.cells - 1 < p.cells.length := by omega
        rw [List.getD_eq_getElem _ _ h1]
        exact List.getElem_mem h1
      obtain ⟨hc0, hc1⟩ := hch _ hmem
      have hvalid : ¬((p.cells.getD (((lt_pos key p.cells : Int)) - 1).toNat defaultCell).child = 0 ∨
          1000000 ≤ (p.cells.getD (((lt_pos key p.cells : Int)) - 1).toNat defaultCell).child) := by
        rw [htn]
        omega
      rw [htn] at hvalid
      simp only [hne, if_false, hne2, if_pos hrange, hs0, htn, if_neg hvalid]

/-- C6 witness: the dispatch theorem applied to the concrete sorted page
`c4page` and a key lying between its second and third separators. -/
theorem c6_internal_find_child_dispatch_witness :
    internal_find_child c4page (KeyVal.mk [2, 5] 2) = .ok
      (if lt_pos (KeyVal.mk [2, 5] 2) c4page.cells = 0 then c4page.reserved0
       else Cell.child
         (c4page.cells.getD (lt_pos (KeyVal.mk [2, 5] 2) c4page.cells - 1) defaultCell)) :=
  c6_internal_find_child_dispatch c4page (KeyVal.mk [2, 5] 2) rfl (by decide!)
    (by decide!) (by decide!) (by decide!)

/-- After the duplicate check failed, the split continuation of
`btree_insert` never reports "duplicate": every successful outcome is
`true`. -/
theorem btree_insert_split_path_true :
    ∀ (db : DB) (lid : Nat) (lp : Page) (key value : KeyVal) (b : Bool) (db2 : DB),
      btree_insert_split_path db lid lp key value = .ok (b, db2) → b = true := by
  intro db lid lp key value b db2 h
  simp only [btree_insert_split_path] at h
  iterate 25 (all_goals try split at h)
  all_goals simp_all

/-- C3. Duplicate-key handling (btree.cpp lines 62-70, spec R2):
`btree_insert` returns `.ok (false, _)` exactly when the tree is non-empty
and the key is already present (`search_record` finds it) in the target
leaf located by `find_leaf_page`; in that case the returned database is
the input database unchanged, so the value and size visible to
`btree_search` for that key are unchanged by the call. -/
theorem c3_duplicate_iff_no_mutation (db : DB) (key value : KeyVal) :
    (∀ db2, btree_insert db key value = .ok (false, db2) →
      db2 = db ∧ db.root_page ≠ 0 ∧
        ∃ lid lp, find_leaf_page db key = .ok (lid, lp) ∧
          (search_record lp key).found = true ∧
          btree_search db2 key = btree_search db key) ∧
    (∀ lid lp, db.root_page ≠ 0 →
      find_leaf_page db key = .ok (lid, lp) →
      (search_record lp key).found = true →
      btree_insert db key value = .ok (false, db)) := by
  constructor
  · intro db2 h
    by_cases hroot : db.root_page = 0
    · simp only [btree_insert, if_pos hroot] at h
      split at h
      · exact absurd h (by simp)
      · exact absurd h (by simp)
    · simp only [btree_insert, if_neg hroot] at h
      cases hfl : find_leaf_page db key with
      | error e => rw [hfl] at h; exact absurd h (by simp)
      | ok lidlp =>
        obtain ⟨lid, lp⟩ := lidlp
        rw [hfl] at h
        by_cases hfound : (search_record lp key).found
        · simp only [hfound, if_true] at h
          have hdb : db2 = db := by
            have := h
            injection this with h1
            injection h1 with _ h2
            exact h2.symm
          exact ⟨hdb, hroot, lid, lp, rfl, hfound, by rw [hdb]⟩
        · simp only [hfound, if_false] at h
          cases hns : btree_insert_leaf_no_split db lid lp key value with
          | error e => rw [hns] at h; exact absurd h (by simp)
          | ok r =>
            obtain ⟨b1, lp1, db1⟩ := r
            rw [hns] at h
            cases b1 with
            | true => exact absurd h (by simp)
            | false =>
              simp only [Bool.false_eq_true, if_false] at h
              exact absurd (btree_insert_split_path_true db lid lp1 key value false db2 h)
                (by simp)
  · intro lid lp hroot hfl hfound
    simp only [btree_insert, if_neg hroot, hfl, hfound, if_true]

/-- Witness for C3: in the two-level database `chainDB`, key `[7]` already
sits in leaf 6, and inserting it again returns `false` with the database
unchanged. -/
theorem c3_duplicate_iff_no_mutation_witness :
    btree_insert chainDB (KeyVal.mk [7] 1) (KeyVal.mk [2] 1) = .ok (false, chainDB) :=
  (c3_duplicate_iff_no_mutation chainDB (KeyVal.mk [7] 1) (KeyVal.mk [2] 1)).2 6 chain_leaf
    (by decide!) (by decide!) (by decide!)
